import Mathlib

/-!
Shallow embedding of the self-service-catalog workspace orchestrator and of its
Terraform deployment module.

The workspace-registry and orchestrator definitions are modelled from the
specification (spec.md §4.1, §4.5, §6, §7): the FastAPI backend sources
(catalog-backend/app/routers/workspaces.py and app/services) are absent from
the repository snapshot — only their README, the UI client
(catalog-ui/src/lib/api.ts), the UI pages, and ARCHITECTURE.md are present.
The Terraform definitions are translated directly from
infrastructure/terraform/app-deployer/main.tf and variables.tf, and the two
slug derivations from main.tf (local.app_slug) and from the DNS setup
script's discover_domains function.  Strings handled by Terraform and by the
shell script are embedded as lists of natural-number character codes.
-/

/-- Workspace lifecycle status.  From the UI type `WorkspaceStatus`
(catalog-ui types, AppCard.tsx) and the ARCHITECTURE.md state diagram. -/
inductive WStatus where
  | PROVISIONING
  | RUNNING
  | DESTROYING
  | FAILED
  | DESTROYED
  deriving DecidableEq, Repr

/-- Workspace row.  From the UI type `Workspace`
{id, catalog_id, status, access_url, ...} with ids and catalog ids abstracted
to naturals and timestamps omitted (they do not affect any claim). -/
structure Workspace where
  id : Nat
  catalogId : Nat
  status : WStatus
  accessUrl : Option String
  deriving DecidableEq, Repr

/-- The workspace registry: one row per workspace (spec §3). -/
abbrev Registry := List Workspace

/-- Errors of the API taxonomy (spec §7) surfaced synchronously. -/
inductive ApiError where
  | ConflictError
  | NotFoundError
  deriving DecidableEq, Repr

/-- A workspace is active when it is `PROVISIONING` or `RUNNING`
(spec §4.1; AppCard.tsx computes the same predicate for the deploy guard). -/
def isActiveStatus (s : WStatus) : Bool :=
  s == WStatus.PROVISIONING || s == WStatus.RUNNING

def findWorkspace (reg : Registry) (wid : Nat) : Option Workspace :=
  reg.find? (fun w => w.id == wid)

def statusOf (reg : Registry) (wid : Nat) : Option WStatus :=
  (findWorkspace reg wid).map (fun w => w.status)

/-- Registry write used by the orchestrator: set the status (and access URL)
of the workspace with the given id. -/
def setStatus (reg : Registry) (wid : Nat) (st : WStatus) (url : Option String) :
    Registry :=
  reg.map (fun w =>
    if w.id == wid then { w with status := st, accessUrl := url } else w)

def activeFor (app : Nat) (w : Workspace) : Bool :=
  w.catalogId == app && isActiveStatus w.status

def hasActive (reg : Registry) (app : Nat) : Bool :=
  reg.any (activeFor app)

def freshId (reg : Registry) (wid : Nat) : Bool :=
  reg.all (fun w => w.id != wid)

def newWorkspace (wid app : Nat) : Workspace :=
  { id := wid, catalogId := app, status := WStatus.PROVISIONING, accessUrl := none }

/-- Modelled from the spec: `CreateWorkspace(catalogSlug)` (spec §4.1) — the
backend router is not in the snapshot.  Fails with `ConflictError` when an
active (`PROVISIONING`/`RUNNING`) workspace already exists for the
application, otherwise inserts a new row with status `PROVISIONING`. -/
def createWorkspace (reg : Registry) (app : Nat) (wid : Nat) :
    Except ApiError Registry :=
  if hasActive reg app then Except.error ApiError.ConflictError
  else Except.ok (newWorkspace wid app :: reg)

/-- Modelled from the spec: `DestroyWorkspace(workspaceId)` (spec §4.1) — the
backend router is not in the snapshot.  `NotFoundError` if the id is unknown,
no-op success if the workspace is already `DESTROYED`/`DESTROYING`, otherwise
it transitions the workspace to `DESTROYING` synchronously. -/
def destroyWorkspace (reg : Registry) (wid : Nat) : Except ApiError Registry :=
  match findWorkspace reg wid with
  | none => Except.error ApiError.NotFoundError
  | some w =>
    if w.status == WStatus.DESTROYED || w.status == WStatus.DESTROYING then
      Except.ok reg
    else Except.ok (setStatus reg wid WStatus.DESTROYING none)

/-- Modelled from the spec: `DestroyAll()` (spec §4.1, §4.5) — transitions
every workspace not already `DESTROYED` to `DESTROYING`. -/
def startDestroyAll (reg : Registry) : Registry :=
  reg.map (fun w =>
    if w.status == WStatus.DESTROYED then w
    else { w with status := WStatus.DESTROYING, accessUrl := none })

/-- Outcome of one external teardown step (Access Exposer teardown, driver
destroy). -/
inductive StepResult where
  | success
  | failure
  deriving DecidableEq, Repr

/-- Outcome of the Access Exposer `Expose` call: an allocated port, or a
failure (tunnel error or `ResourceExhausted` port-range saturation). -/
inductive ExposeOutcome where
  | exposed (port : Nat)
  | exposeFailed
  deriving DecidableEq, Repr

/-- Outcomes of the external steps of one create sequence. -/
structure CreateOutcome where
  entryFound : Bool
  imagesBuilt : Bool
  deployApplied : Bool
  exposeResult : ExposeOutcome
  deriving DecidableEq, Repr

def accessUrlFor (host : String) (port : Nat) : String :=
  "http://" ++ host ++ ":" ++ toString port

/-- Modelled from the spec: the asynchronous create sequence (spec §4.1 steps
1–5) — resolve the entry, build images, apply the deployment, expose.  A
failing resolve/build/apply marks the workspace `FAILED`; a failing expose
still marks it `RUNNING` with a null access URL (exposure failure is
non-fatal and only logged). -/
def runCreateSequence (oc : CreateOutcome) (host : String) (reg : Registry)
    (wid : Nat) : Registry :=
  if oc.entryFound = false then setStatus reg wid WStatus.FAILED none
  else if oc.imagesBuilt = false then setStatus reg wid WStatus.FAILED none
  else if oc.deployApplied = false then setStatus reg wid WStatus.FAILED none
  else
    match oc.exposeResult with
    | ExposeOutcome.exposed port =>
      setStatus reg wid WStatus.RUNNING (some (accessUrlFor host port))
    | ExposeOutcome.exposeFailed =>
      setStatus reg wid WStatus.RUNNING none

/-- Modelled from the spec: the asynchronous destroy sequence (spec §4.1) —
tear down the exposer mapping, invoke the driver destroy, then mark the
workspace `DESTROYED` regardless of whether either step returned an error;
errors are only logged (the second component counts the logged errors). -/
def runDestroySequence (unexposeResult destroyResult : StepResult)
    (reg : Registry) (wid : Nat) : Registry × Nat :=
  let logged1 := match unexposeResult with
    | StepResult.success => 0
    | StepResult.failure => 1
  let logged2 := match destroyResult with
    | StepResult.success => 0
    | StepResult.failure => 1
  (setStatus reg wid WStatus.DESTROYED none, logged1 + logged2)

/-- Modelled from the spec: the registry writes any orchestrator task can
perform (spec §4.1, §4.5).  Creation requires a freshly generated id; the
status-marking writes are guarded by the current status, reflecting the
cooperative checkpoints of §4.5. -/
inductive Step : Registry → Registry → Prop where
  | create (reg : Registry) (app wid : Nat)
      (hfresh : freshId reg wid = true) (hok : hasActive reg app = false) :
      Step reg (newWorkspace wid app :: reg)
  | markRunning (reg : Registry) (wid : Nat) (url : Option String)
      (h : statusOf reg wid = some WStatus.PROVISIONING) :
      Step reg (setStatus reg wid WStatus.RUNNING url)
  | markFailed (reg : Registry) (wid : Nat)
      (h : statusOf reg wid = some WStatus.PROVISIONING) :
      Step reg (setStatus reg wid WStatus.FAILED none)
  | startDestroy (reg : Registry) (wid : Nat) (s : WStatus)
      (h : statusOf reg wid = some s) (h1 : s ≠ WStatus.DESTROYING)
      (h2 : s ≠ WStatus.DESTROYED) :
      Step reg (setStatus reg wid WStatus.DESTROYING none)
  | markDestroyed (reg : Registry) (wid : Nat)
      (h : statusOf reg wid = some WStatus.DESTROYING) :
      Step reg (setStatus reg wid WStatus.DESTROYED none)
  | destroyAllStep (reg : Registry) :
      Step reg (startDestroyAll reg)

/-- Registry states reachable from the empty registry. -/
inductive Reachable : Registry → Prop where
  | init : Reachable []
  | next (reg reg' : Registry) : Reachable reg → Step reg reg' → Reachable reg'

/-- Combined inductive invariant of reachable registries: generated ids are
pairwise distinct, each application has at most one active workspace, and a
non-null access URL implies status `RUNNING`. -/
def GoodState (reg : Registry) : Prop :=
  (reg.map (fun w => w.id)).Nodup ∧
  (∀ app, reg.countP (activeFor app) ≤ 1) ∧
  (∀ w ∈ reg, w.accessUrl.isSome = true → w.status = WStatus.RUNNING)

/-- The workspace status transition set as realised by the modelled
orchestrator: the five transitions of the ARCHITECTURE.md diagram plus
`FAILED → DESTROYING` (the effect of `DestroyWorkspace` on a `FAILED`
workspace, spec §4.1/§7). -/
def allowedTransition : WStatus → WStatus → Bool
  | WStatus.PROVISIONING, WStatus.RUNNING => true
  | WStatus.PROVISIONING, WStatus.FAILED => true
  | WStatus.PROVISIONING, WStatus.DESTROYING => true
  | WStatus.RUNNING, WStatus.DESTROYING => true
  | WStatus.FAILED, WStatus.DESTROYING => true
  | WStatus.DESTROYING, WStatus.DESTROYED => true
  | _, _ => false

/-- The transition set exactly as the claim states it: no edge out of
`FAILED`. -/
def claimedTransition : WStatus → WStatus → Bool
  | WStatus.PROVISIONING, WStatus.RUNNING => true
  | WStatus.PROVISIONING, WStatus.FAILED => true
  | WStatus.PROVISIONING, WStatus.DESTROYING => true
  | WStatus.RUNNING, WStatus.DESTROYING => true
  | WStatus.DESTROYING, WStatus.DESTROYED => true
  | _, _ => false

/-! ### Terraform app-deployer module and slug derivations -/

/-- Character codes of a string.  Strings processed by Terraform and the
shell scripts are embedded as lists of natural-number character codes. -/
def codes (s : String) : List Nat :=
  s.data.map Char.toNat

/-- ASCII lowercasing of one character code, as performed by Terraform's
`lower()` and by the shell's `tr` with the upper and lower classes on
ASCII input. -/
def asciiLower (c : Nat) : Nat :=
  if 65 ≤ c ∧ c ≤ 90 then c + 32 else c

/-- Replace a space by a hyphen: the literal `replace(s, " ", "-")` of
main.tf and the `tr` space-to-hyphen stage of the DNS setup script. -/
def spaceToHyphen (c : Nat) : Nat :=
  if c = 32 then 45 else c

/-- Replace an underscore by a hyphen: the `tr` underscore-to-hyphen stage
of the DNS setup script. -/
def underscoreToHyphen (c : Nat) : Nat :=
  if c = 95 then 45 else c

/-- Lowercase ASCII letter or digit: the class `[a-z0-9]`. -/
def isLowerAlnum (c : Nat) : Bool :=
  (97 ≤ c && c ≤ 122) || (48 ≤ c && c ≤ 57)

/-- The character class `[a-z0-9-]` of the Terraform regexes. -/
def isLowerAlnumHyphen (c : Nat) : Bool :=
  isLowerAlnum c || c == 45

/-- From main.tf: `app_slug = replace(replace(lower(local.manifest.appName),
" ", "-"), "/[^a-z0-9-]/", "")` — lowercase, replace spaces with hyphens,
then delete every character outside `[a-z0-9-]`. -/
def tf_app_slug (name : List Nat) : List Nat :=
  ((name.map asciiLower).map spaceToHyphen).filter isLowerAlnumHyphen

/-- From the DNS setup script's discover_domains: slug derivation by
lowercasing, then replacing spaces with hyphens, then replacing underscores
with hyphens. -/
def dnsSlug (name : List Nat) : List Nat :=
  ((name.map asciiLower).map spaceToHyphen).map underscoreToHyphen

/-- Tail of the workspace-id regex: `[a-z0-9-]*[a-z0-9]` (middle characters
from `[a-z0-9-]`, final character from `[a-z0-9]`). -/
def matchesIdTail : List Nat → Bool
  | [] => false
  | [c] => isLowerAlnum c
  | c :: rest => isLowerAlnumHyphen c && matchesIdTail rest

/-- From variables.tf: the anchored regex
`^[a-z0-9][a-z0-9-]*[a-z0-9]$` on the `workspace_id` variable. -/
def matchesIdPattern : List Nat → Bool
  | [] => false
  | c :: rest => isLowerAlnum c && matchesIdTail rest

/-- From variables.tf: the full `workspace_id` validation condition —
the regex must match and the length must lie between 3 and 63. -/
def validWorkspaceId (s : List Nat) : Bool :=
  matchesIdPattern s && decide (3 ≤ s.length) && decide (s.length ≤ 63)

/-- From main.tf: `namespace = "ws-${var.workspace_id}"`. -/
def tfNamespace (wsId : List Nat) : List Nat :=
  codes ("ws-") ++ wsId

/-- From main.tf: the Helm release `helm_release.app` is named
`local.app_slug`. -/
def tfReleaseName (appName : List Nat) : List Nat :=
  tf_app_slug appName

/-- Cluster state touched by the app-deployer module: the namespaces
present, the installed Helm releases (namespace paired with release name),
and the remains of failed non-atomic installs. -/
structure ClusterState where
  namespaces : List (List Nat)
  releases : List (List Nat × List Nat)
  partialReleases : List (List Nat × List Nat)
  deriving DecidableEq, Repr

inductive TfError where
  | InvalidWorkspaceId
  | HelmFailed
  deriving DecidableEq, Repr

/-- Declarative create-or-keep: Terraform and Helm ensure the named resource
exists, creating it only when absent. -/
def insertUnique {α : Type} [DecidableEq α] (x : α) (l : List α) : List α :=
  if x ∈ l then l else l ++ [x]

/-- One `terraform apply` of the app-deployer module (main.tf).  Input
validation (variables.tf) runs first and rejects without touching the
cluster.  Then the `kubernetes_namespace_v1.workspace` resource is ensured,
then `helm_release.app` (name `local.app_slug`, `atomic = var.helm_atomic`,
`wait = var.helm_wait`) is installed: on success the release is present;
when some chart resource fails to become ready within `var.helm_timeout`,
the release is purged if `helm_atomic` is set (variables.tf: "installation
process purges chart on fail") and left as a failed partial install
otherwise.  Terraform does not destroy resources created earlier in the
same apply, so the already-created namespace persists in either case. -/
def tfApply (helmReady helmAtomic : Bool) (wsId appName : List Nat)
    (st : ClusterState) : Option TfError × ClusterState :=
  if validWorkspaceId wsId = false then (some TfError.InvalidWorkspaceId, st)
  else
    let ns := tfNamespace wsId
    let rel := tfReleaseName appName
    let st1 : ClusterState := { st with namespaces := insertUnique ns st.namespaces }
    if helmReady then
      (none, { st1 with releases := insertUnique (ns, rel) st1.releases })
    else if helmAtomic then
      (some TfError.HelmFailed, st1)
    else
      (some TfError.HelmFailed,
        { st1 with partialReleases := insertUnique (ns, rel) st1.partialReleases })

/-- Modelled from the spec: the `DELETE /workspaces` route (spec §6) — a 202
that begins destroy-all when `confirm=true` is passed, a 400 with no
destruction initiated otherwise.  The UI client only ever sends
`?confirm=true` (api.ts destroyAll). -/
def destroyAllRoute (confirm : Option String) (reg : Registry) :
    Nat × Registry :=
  if confirm == some ("true") then (202, startDestroyAll reg)
  else (400, reg)

def urlOf (reg : Registry) (wid : Nat) : Option (Option String) :=
  (findWorkspace reg wid).map (fun w => w.accessUrl)

/-- The claim's characterisation of acceptable workspace ids, stated from
the spec-side wording: 3 to 63 characters, all lowercase alphanumeric or
hyphen, with alphanumeric first and last characters. -/
def wsIdSpec (s : List Nat) : Prop :=
  3 ≤ s.length ∧ s.length ≤ 63 ∧
  (∀ c ∈ s, isLowerAlnumHyphen c = true) ∧
  (∃ hd, s.head? = some hd ∧ isLowerAlnum hd = true) ∧
  (∃ lst, s.getLast? = some lst ∧ isLowerAlnum lst = true)

/-! ### Helper lemmas about registry operations -/

theorem find?_map_pres {α : Type} (p : α → Bool) (f : α → α) (l : List α)
    (hf : ∀ a, p (f a) = p a) :
    (l.map f).find? p = (l.find? p).map f := by
  induction l with
  | nil => rfl
  | cons a t ih =>
    by_cases h : p a = true
    · rw [List.map_cons, List.find?_cons_of_pos _ (by rw [hf]; exact h),
        List.find?_cons_of_pos _ h, Option.map_some']
    · rw [List.map_cons, List.find?_cons_of_neg _ (by rw [hf]; exact h),
        List.find?_cons_of_neg _ h, ih]

theorem setStatus_pres_id (w : Workspace) (wid : Nat) (st : WStatus)
    (url : Option String) :
    (if w.id == wid then { w with status := st, accessUrl := url } else w).id
      = w.id := by
  by_cases h : w.id == wid <;> simp [h]

theorem findWorkspace_setStatus (reg : Registry) (wid wid' : Nat) (st : WStatus)
    (url : Option String) :
    findWorkspace (setStatus reg wid st url) wid' =
      (findWorkspace reg wid').map
        (fun w => if w.id == wid then { w with status := st, accessUrl := url }
          else w) := by
  unfold findWorkspace setStatus
  apply find?_map_pres
  intro w
  rw [setStatus_pres_id]

theorem findWorkspace_startDestroyAll (reg : Registry) (wid : Nat) :
    findWorkspace (startDestroyAll reg) wid =
      (findWorkspace reg wid).map
        (fun w => if w.status == WStatus.DESTROYED then w
          else { w with status := WStatus.DESTROYING, accessUrl := none }) := by
  unfold findWorkspace startDestroyAll
  apply find?_map_pres
  intro w
  by_cases h : w.status == WStatus.DESTROYED <;> simp [h]

theorem find_of_nodup_mem (reg : Registry)
    (hnd : (reg.map (fun w => w.id)).Nodup) (w : Workspace) (hw : w ∈ reg) :
    findWorkspace reg w.id = some w := by
  induction reg with
  | nil => exact absurd hw (List.not_mem_nil w)
  | cons a t ih =>
    rw [List.map_cons, List.nodup_cons] at hnd
    rcases List.mem_cons.mp hw with h | h
    · subst h
      unfold findWorkspace
      rw [List.find?_cons_of_pos _ (by simp)]
    · have hne : a.id ≠ w.id := by
        intro hEq
        exact hnd.1 (hEq ▸ List.mem_map_of_mem (fun w => w.id) h)
      unfold findWorkspace
      rw [List.find?_cons_of_neg _ (by simp [hne])]
      exact ih hnd.2 h

theorem countP_map_le (p : Workspace → Bool) (f : Workspace → Workspace)
    (l : List Workspace) (h : ∀ w ∈ l, p (f w) = true → p w = true) :
    (l.map f).countP p ≤ l.countP p := by
  induction l with
  | nil => simp
  | cons a t ih =>
    rw [List.map_cons, List.countP_cons, List.countP_cons]
    have hrec := ih (fun w hw => h w (List.mem_cons_of_mem a hw))
    by_cases ha : p (f a) = true
    · have hb := h a (List.mem_cons_self a t) ha
      rw [if_pos ha, if_pos hb]
      omega
    · rw [if_neg ha]
      split <;> omega

theorem setStatus_ids (reg : Registry) (wid : Nat) (st : WStatus)
    (url : Option String) :
    (setStatus reg wid st url).map (fun w => w.id) = reg.map (fun w => w.id) := by
  unfold setStatus
  rw [List.map_map]
  apply List.map_congr_left
  intro w _
  exact setStatus_pres_id w wid st url

theorem destroyAll_pres_id (w : Workspace) :
    (if w.status == WStatus.DESTROYED then w
      else { w with status := WStatus.DESTROYING, accessUrl := none }).id
      = w.id := by
  by_cases h : (w.status == WStatus.DESTROYED) = true
  · rw [if_pos h]
  · rw [if_neg h]

theorem startDestroyAll_ids (reg : Registry) :
    (startDestroyAll reg).map (fun w => w.id) = reg.map (fun w => w.id) := by
  unfold startDestroyAll
  rw [List.map_map]
  apply List.map_congr_left
  intro w _
  exact destroyAll_pres_id w

theorem countP_active_le (app : Nat) (f : Workspace → Workspace)
    (l : List Workspace)
    (hf : ∀ w ∈ l, f w = w ∨ isActiveStatus (f w).status = false) :
    (l.map f).countP (activeFor app) ≤ l.countP (activeFor app) := by
  apply countP_map_le
  intro w hw hfw
  rcases hf w hw with h | h
  · rwa [h] at hfw
  · exfalso
    unfold activeFor at hfw
    rw [h, Bool.and_false] at hfw
    exact Bool.false_ne_true hfw

theorem urlInv_map (reg : Registry) (f : Workspace → Workspace)
    (hinv : ∀ w ∈ reg, w.accessUrl.isSome = true → w.status = WStatus.RUNNING)
    (hf : ∀ w ∈ reg,
      f w = w ∨ (f w).accessUrl = none ∨ (f w).status = WStatus.RUNNING) :
    ∀ w' ∈ reg.map f, w'.accessUrl.isSome = true →
      w'.status = WStatus.RUNNING := by
  intro w' hw' hu
  rcases List.mem_map.mp hw' with ⟨w, hw, rfl⟩
  rcases hf w hw with h | h | h
  · rw [h] at hu ⊢
    exact hinv w hw hu
  · rw [h] at hu
    simp at hu
  · exact h

theorem goodState_step (reg reg' : Registry) (hg : GoodState reg)
    (hs : Step reg reg') : GoodState reg' := by
  obtain ⟨hnd, hcount, hurl⟩ := hg
  cases hs with
  | create app wid hfresh hok =>
      refine ⟨?_, ?_, ?_⟩
      · rw [List.map_cons, List.nodup_cons]
        refine ⟨?_, hnd⟩
        intro hmem
        rcases List.mem_map.mp hmem with ⟨w, hw, hwid⟩
        have hne := List.all_eq_true.mp hfresh w hw
        have hid : (newWorkspace wid app).id = wid := rfl
        rw [hid] at hwid
        simp at hne
        exact hne hwid
      · intro app'
        rw [List.countP_cons]
        by_cases h : app' = app
        · subst h
          have hzero : reg.countP (activeFor app') = 0 := by
            rw [List.countP_eq_zero]
            intro w hw hactive
            have hhas : hasActive reg app' = true :=
              List.any_eq_true.mpr ⟨w, hw, hactive⟩
            rw [hok] at hhas
            exact Bool.false_ne_true hhas
          rw [hzero]
          split <;> omega
        · have hfalse : activeFor app' (newWorkspace wid app) = false := by
            unfold activeFor newWorkspace
            have hb : (app == app') = false := beq_eq_false_iff_ne.mpr (Ne.symm h)
            simp [hb]
          rw [hfalse]
          simpa using hcount app'
      · intro w hw hu
        rcases List.mem_cons.mp hw with h | h
        · subst h
          simp [newWorkspace] at hu
        · exact hurl w h hu
  | markRunning wid url h =>
      refine ⟨by rw [setStatus_ids]; exact hnd, ?_, ?_⟩
      · intro app
        unfold setStatus
        refine Nat.le_trans (countP_map_le _ _ _ ?_) (hcount app)
        intro w hw hfw
        by_cases hid : (w.id == wid) = true
        · have hfind : findWorkspace reg wid = some w := by
            have hf := find_of_nodup_mem reg hnd w hw
            have hideq : w.id = wid := by simpa using hid
            rwa [hideq] at hf
          have hst : w.status = WStatus.PROVISIONING := by
            unfold statusOf at h
            rw [hfind] at h
            simpa using h
          rw [if_pos hid] at hfw
          unfold activeFor isActiveStatus at hfw ⊢
          rw [hst]
          simpa using hfw
        · rwa [if_neg hid] at hfw
      · unfold setStatus
        refine urlInv_map reg _ hurl ?_
        intro w hw
        by_cases hid : (w.id == wid) = true
        · right; right
          rw [if_pos hid]
        · left
          rw [if_neg hid]
  | markFailed wid h =>
      refine ⟨by rw [setStatus_ids]; exact hnd, ?_, ?_⟩
      · intro app
        unfold setStatus
        refine Nat.le_trans (countP_active_le app _ reg ?_) (hcount app)
        intro w hw
        by_cases hid : (w.id == wid) = true
        · right
          rw [if_pos hid]
          rfl
        · left
          rw [if_neg hid]
      · unfold setStatus
        refine urlInv_map reg _ hurl ?_
        intro w hw
        by_cases hid : (w.id == wid) = true
        · right; left
          rw [if_pos hid]
        · left
          rw [if_neg hid]
  | startDestroy wid s h h1 h2 =>
      refine ⟨by rw [setStatus_ids]; exact hnd, ?_, ?_⟩
      · intro app
        unfold setStatus
        refine Nat.le_trans (countP_active_le app _ reg ?_) (hcount app)
        intro w hw
        by_cases hid : (w.id == wid) = true
        · right
          rw [if_pos hid]
          rfl
        · left
          rw [if_neg hid]
      · unfold setStatus
        refine urlInv_map reg _ hurl ?_
        intro w hw
        by_cases hid : (w.id == wid) = true
        · right; left
          rw [if_pos hid]
        · left
          rw [if_neg hid]
  | markDestroyed wid h =>
      refine ⟨by rw [setStatus_ids]; exact hnd, ?_, ?_⟩
      · intro app
        unfold setStatus
        refine Nat.le_trans (countP_active_le app _ reg ?_) (hcount app)
        intro w hw
        by_cases hid : (w.id == wid) = true
        · right
          rw [if_pos hid]
          rfl
        · left
          rw [if_neg hid]
      · unfold setStatus
        refine urlInv_map reg _ hurl ?_
        intro w hw
        by_cases hid : (w.id == wid) = true
        · right; left
          rw [if_pos hid]
        · left
          rw [if_neg hid]
  | destroyAllStep =>
      refine ⟨by rw [startDestroyAll_ids]; exact hnd, ?_, ?_⟩
      · intro app
        unfold startDestroyAll
        refine Nat.le_trans (countP_active_le app _ reg ?_) (hcount app)
        intro w hw
        by_cases hd : (w.status == WStatus.DESTROYED) = true
        · left
          rw [if_pos hd]
        · right
          rw [if_neg hd]
          rfl
      · unfold startDestroyAll
        refine urlInv_map reg _ hurl ?_
        intro w hw
        by_cases hd : (w.status == WStatus.DESTROYED) = true
        · left
          rw [if_pos hd]
        · right; left
          rw [if_neg hd]

theorem reachable_goodState (reg : Registry) (h : Reachable reg) :
    GoodState reg := by
  induction h with
  | init =>
      refine ⟨List.nodup_nil, ?_, ?_⟩
      · intro app
        simp
      · intro w hw
        exact absurd hw (List.not_mem_nil w)
  | next reg reg' hr hs ih => exact goodState_step reg reg' ih hs

/-! ### Status transitions -/

theorem statusOf_setStatus (reg : Registry) (wid wid' : Nat) (st : WStatus)
    (url : Option String) :
    statusOf (setStatus reg wid st url) wid' =
      (findWorkspace reg wid').map
        (fun w => if w.id == wid then st else w.status) := by
  unfold statusOf
  rw [findWorkspace_setStatus]
  cases findWorkspace reg wid' with
  | none => rfl
  | some w =>
    simp only [Option.map_some']
    congr 1
    by_cases h : (w.id == wid) = true
    · rw [if_pos h, if_pos h]
    · rw [if_neg h, if_neg h]

theorem statusOf_startDestroyAll (reg : Registry) (wid : Nat) :
    statusOf (startDestroyAll reg) wid =
      (findWorkspace reg wid).map
        (fun w => if w.status == WStatus.DESTROYED then w.status
          else WStatus.DESTROYING) := by
  unfold statusOf
  rw [findWorkspace_startDestroyAll]
  cases findWorkspace reg wid with
  | none => rfl
  | some w =>
    simp only [Option.map_some']
    congr 1
    by_cases h : (w.status == WStatus.DESTROYED) = true
    · rw [if_pos h, if_pos h]
    · rw [if_neg h, if_neg h]

theorem statusOf_setStatus_cases (reg : Registry) (wid wid' : Nat)
    (st : WStatus) (url : Option String) (s s' : WStatus)
    (h : statusOf reg wid = some s)
    (h' : statusOf (setStatus reg wid' st url) wid = some s') :
    s' = s ∨ (s' = st ∧ statusOf reg wid' = some s) := by
  rw [statusOf_setStatus] at h'
  unfold statusOf at h
  cases hfind : findWorkspace reg wid with
  | none =>
    rw [hfind] at h
    exact absurd h (by simp)
  | some w =>
    rw [hfind] at h h'
    simp only [Option.map_some'] at h h'
    have hs : w.status = s := Option.some.inj h
    by_cases hb : (w.id == wid') = true
    · right
      rw [if_pos hb] at h'
      refine ⟨(Option.some.inj h').symm, ?_⟩
      have hfind' : reg.find? (fun w => w.id == wid) = some w := hfind
      have hweq : w.id = wid := by simpa using List.find?_some hfind'
      have hww : wid = wid' := by
        have hb' : w.id = wid' := by simpa using hb
        rw [hweq] at hb'
        exact hb'
      rw [← hww]
      unfold statusOf
      rw [hfind, Option.map_some', hs]
    · left
      rw [if_neg hb] at h'
      rw [← hs]
      exact (Option.some.inj h').symm

theorem step_transition (reg reg' : Registry) (wid : Nat) (s s' : WStatus)
    (hs : Step reg reg') (h : statusOf reg wid = some s)
    (h' : statusOf reg' wid = some s') :
    s = s' ∨ allowedTransition s s' = true := by
  cases hs with
  | create app wid' hfresh hok =>
      unfold statusOf findWorkspace at h'
      by_cases hb : ((newWorkspace wid' app).id == wid) = true
      · exfalso
        have hwid : wid' = wid := by simpa [newWorkspace] using hb
        subst hwid
        unfold statusOf findWorkspace at h
        cases hfind : reg.find? (fun w => w.id == wid') with
        | none =>
          rw [hfind] at h
          simp at h
        | some w =>
          have hmem := List.mem_of_find?_eq_some hfind
          have hp := List.find?_some hfind
          have hne := List.all_eq_true.mp hfresh w hmem
          simp at hp hne
          exact hne hp
      · rw [List.find?_cons_of_neg reg hb] at h'
        unfold statusOf findWorkspace at h
        rw [h] at h'
        exact Or.inl (Option.some.inj h')
  | markRunning wid' url hPre =>
      rcases statusOf_setStatus_cases reg wid wid' WStatus.RUNNING url s s' h h'
        with heq | ⟨hst, hPre'⟩
      · exact Or.inl heq.symm
      · right
        rw [hPre] at hPre'
        have : s = WStatus.PROVISIONING := (Option.some.inj hPre').symm
        rw [this, hst]
        rfl
  | markFailed wid' hPre =>
      rcases statusOf_setStatus_cases reg wid wid' WStatus.FAILED none s s' h h'
        with heq | ⟨hst, hPre'⟩
      · exact Or.inl heq.symm
      · right
        rw [hPre] at hPre'
        have : s = WStatus.PROVISIONING := (Option.some.inj hPre').symm
        rw [this, hst]
        rfl
  | startDestroy wid' s0 hPre h1 h2 =>
      rcases statusOf_setStatus_cases reg wid wid' WStatus.DESTROYING none s s' h h'
        with heq | ⟨hst, hPre'⟩
      · exact Or.inl heq.symm
      · rw [hPre] at hPre'
        have hs0 : s = s0 := (Option.some.inj hPre').symm
        subst hs0
        rw [hst]
        cases s with
        | PROVISIONING => exact Or.inr rfl
        | RUNNING => exact Or.inr rfl
        | FAILED => exact Or.inr rfl
        | DESTROYING => exact absurd rfl h1
        | DESTROYED => exact absurd rfl h2
  | markDestroyed wid' hPre =>
      rcases statusOf_setStatus_cases reg wid wid' WStatus.DESTROYED none s s' h h'
        with heq | ⟨hst, hPre'⟩
      · exact Or.inl heq.symm
      · right
        rw [hPre] at hPre'
        have : s = WStatus.DESTROYING := (Option.some.inj hPre').symm
        rw [this, hst]
        rfl
  | destroyAllStep =>
      rw [statusOf_startDestroyAll] at h'
      unfold statusOf at h
      cases hfind : findWorkspace reg wid with
      | none =>
        rw [hfind] at h
        exact absurd h (by simp)
      | some w =>
        rw [hfind] at h h'
        simp only [Option.map_some'] at h h'
        have hs : w.status = s := Option.some.inj h
        by_cases hb : (w.status == WStatus.DESTROYED) = true
        · left
          rw [if_pos hb] at h'
          rw [← hs]
          exact Option.some.inj h'
        · rw [if_neg hb] at h'
          have hs' : s' = WStatus.DESTROYING := (Option.some.inj h').symm
          rw [hs', ← hs]
          have hne : w.status ≠ WStatus.DESTROYED := by simpa using hb
          cases hw : w.status with
          | PROVISIONING => exact Or.inr rfl
          | RUNNING => exact Or.inr rfl
          | FAILED => exact Or.inr rfl
          | DESTROYING => exact Or.inl rfl
          | DESTROYED => exact absurd hw hne

/-! ### Claim theorems -/

/-- C1: in every reachable registry state at most one workspace per catalog
application is active (`PROVISIONING` or `RUNNING`); `CreateWorkspace`
fails with `ConflictError` exactly when an active workspace for the
application already exists, and only otherwise inserts a new workspace row
with status `PROVISIONING`. -/
theorem one_active_workspace_per_app (reg : Registry) (app wid : Nat)
    (hreach : Reachable reg) :
    reg.countP (activeFor app) ≤ 1 ∧
    (hasActive reg app = true →
      createWorkspace reg app wid = Except.error ApiError.ConflictError) ∧
    (hasActive reg app = false →
      createWorkspace reg app wid = Except.ok (newWorkspace wid app :: reg) ∧
      (newWorkspace wid app).status = WStatus.PROVISIONING) := by
  refine ⟨(reachable_goodState reg hreach).2.1 app, ?_, ?_⟩
  · intro h
    unfold createWorkspace
    rw [if_pos h]
  · intro h
    refine ⟨?_, rfl⟩
    unfold createWorkspace
    rw [if_neg (by rw [h]; exact Bool.false_ne_true)]

theorem one_active_workspace_per_app_witness :
    List.countP (activeFor 0) [newWorkspace 5 0] ≤ 1 ∧
    createWorkspace [newWorkspace 5 0] 0 6 =
      Except.error ApiError.ConflictError := by
  have hr : Reachable [newWorkspace 5 0] :=
    Reachable.next [] [newWorkspace 5 0] Reachable.init
      (Step.create [] 0 5 rfl rfl)
  exact ⟨(one_active_workspace_per_app [newWorkspace 5 0] 0 6 hr).1,
    (one_active_workspace_per_app [newWorkspace 5 0] 0 6 hr).2.1 rfl⟩

/-- C3: in every reachable registry state, a workspace whose access URL is
non-null has status `RUNNING`, and a workspace in any other status has a
null access URL. -/
theorem access_url_only_when_running (reg : Registry) (w : Workspace)
    (hreach : Reachable reg) (hw : w ∈ reg) :
    (w.accessUrl.isSome = true → w.status = WStatus.RUNNING) ∧
    (w.status ≠ WStatus.RUNNING → w.accessUrl = none) := by
  have hinv := (reachable_goodState reg hreach).2.2 w hw
  refine ⟨hinv, ?_⟩
  intro hne
  cases hu : w.accessUrl with
  | none => rfl
  | some u => exact absurd (hinv (by rw [hu]; rfl)) hne

theorem access_url_only_when_running_witness :
    ({ id := 5, catalogId := 0, status := WStatus.RUNNING,
       accessUrl := some (accessUrlFor ("localhost") 3001) } :
      Workspace).status = WStatus.RUNNING := by
  have hr : Reachable (setStatus [newWorkspace 5 0] 5 WStatus.RUNNING
      (some (accessUrlFor ("localhost") 3001))) :=
    Reachable.next [newWorkspace 5 0] _
      (Reachable.next [] [newWorkspace 5 0] Reachable.init
        (Step.create [] 0 5 rfl rfl))
      (Step.markRunning [newWorkspace 5 0] 5
        (some (accessUrlFor ("localhost") 3001)) rfl)
  exact (access_url_only_when_running _ _ hr (by decide)).1 rfl

/-- C4: `DestroyWorkspace` is idempotent at the interface — after any
successful call the workspace is `DESTROYING` or `DESTROYED` and a second
call on the same id succeeds as a no-op returning the same state; an
unknown id fails with `NotFoundError`. -/
theorem destroy_workspace_idempotent (reg reg' : Registry) (wid : Nat) :
    (destroyWorkspace reg wid = Except.ok reg' →
      destroyWorkspace reg' wid = Except.ok reg' ∧
      (statusOf reg' wid = some WStatus.DESTROYING ∨
       statusOf reg' wid = some WStatus.DESTROYED)) ∧
    (findWorkspace reg wid = none →
      destroyWorkspace reg wid = Except.error ApiError.NotFoundError) := by
  constructor
  · intro h
    unfold destroyWorkspace at h
    cases hfind : findWorkspace reg wid with
    | none =>
      rw [hfind] at h
      exact absurd h (by simp)
    | some w =>
      rw [hfind] at h
      replace h : (if (w.status == WStatus.DESTROYED ||
            w.status == WStatus.DESTROYING) = true then Except.ok reg
          else Except.ok (setStatus reg wid WStatus.DESTROYING none)) =
          Except.ok reg' := h
      by_cases hterm :
          (w.status == WStatus.DESTROYED || w.status == WStatus.DESTROYING) = true
      · rw [if_pos hterm] at h
        have hreg : reg = reg' := by
          have := h
          injection this
        subst hreg
        constructor
        · unfold destroyWorkspace
          rw [hfind]
          show (if (w.status == WStatus.DESTROYED ||
              w.status == WStatus.DESTROYING) = true then Except.ok reg
            else Except.ok (setStatus reg wid WStatus.DESTROYING none)) =
            Except.ok reg
          rw [if_pos hterm]
        · unfold statusOf
          rw [hfind, Option.map_some']
          rcases Bool.or_eq_true_iff.mp hterm with hd | hd
          · right
            have : w.status = WStatus.DESTROYED := by simpa using hd
            rw [this]
          · left
            have : w.status = WStatus.DESTROYING := by simpa using hd
            rw [this]
      · rw [if_neg hterm] at h
        have hreg' : setStatus reg wid WStatus.DESTROYING none = reg' := by
          injection h
        subst hreg'
        have hfind' : reg.find? (fun x => x.id == wid) = some w := hfind
        have hwid := List.find?_some hfind'
        constructor
        · unfold destroyWorkspace
          rw [findWorkspace_setStatus, hfind, Option.map_some', if_pos hwid]
          rfl
        · left
          rw [statusOf_setStatus, hfind, Option.map_some', if_pos hwid]
  · intro h
    unfold destroyWorkspace
    rw [h]

theorem destroy_workspace_idempotent_witness :
    destroyWorkspace
        [{ id := 0, catalogId := 0, status := WStatus.DESTROYING,
           accessUrl := none }] 0 =
      Except.ok
        [{ id := 0, catalogId := 0, status := WStatus.DESTROYING,
           accessUrl := none }] ∧
    destroyWorkspace [] 0 = Except.error ApiError.NotFoundError :=
  ⟨((destroy_workspace_idempotent
      [{ id := 0, catalogId := 0, status := WStatus.RUNNING, accessUrl := none }]
      [{ id := 0, catalogId := 0, status := WStatus.DESTROYING, accessUrl := none }]
      0).1 rfl).1,
   (destroy_workspace_idempotent [] [] 0).2 rfl⟩

/-- C2 counterexample: `DestroyWorkspace` moves a `FAILED` workspace to
`DESTROYING` (spec §4.1 "otherwise transitions to `DESTROYING`", §7 "a
`FAILED` workspace can only be remedied by destroying it"; the UI delete
button is enabled for `FAILED` workspaces).  This transition lies outside
the claimed transition set, so `FAILED` is not terminal as claimed. -/
theorem workspace_transitions_cex :
    destroyWorkspace
        [{ id := 0, catalogId := 0, status := WStatus.FAILED,
           accessUrl := none }] 0 =
      Except.ok
        [{ id := 0, catalogId := 0, status := WStatus.DESTROYING,
           accessUrl := none }] ∧
    claimedTransition WStatus.FAILED WStatus.DESTROYING = false :=
  ⟨rfl, rfl⟩

/-- C2 (amended): every status change performed by an orchestrator step lies
in the claimed transition set extended with `FAILED → DESTROYING`;
`DESTROYED` is terminal, `FAILED` can move only to `DESTROYING`,
`DESTROYING` can move only to `DESTROYED` (never back to `RUNNING` or to
`FAILED`), and the destroy sequence marks the workspace `DESTROYED` even
when the exposer teardown and the driver destroy step both errored. -/
theorem workspace_transition_discipline (reg reg' : Registry) (wid : Nat)
    (s s' t : WStatus) (ur dr : StepResult) :
    (Step reg reg' → statusOf reg wid = some s →
      statusOf reg' wid = some s' → s = s' ∨ allowedTransition s s' = true) ∧
    allowedTransition WStatus.DESTROYED t = false ∧
    (allowedTransition WStatus.FAILED t = true → t = WStatus.DESTROYING) ∧
    (allowedTransition WStatus.DESTROYING t = true → t = WStatus.DESTROYED) ∧
    (runDestroySequence ur dr reg wid).1 =
      setStatus reg wid WStatus.DESTROYED none := by
  refine ⟨fun hs => step_transition reg reg' wid s s' hs, ?_, ?_, ?_, rfl⟩
  · cases t <;> rfl
  · intro h
    cases t <;> first | rfl | exact absurd h (by decide)
  · intro h
    cases t <;> first | rfl | exact absurd h (by decide)

theorem workspace_transition_discipline_witness :
    (WStatus.RUNNING = WStatus.DESTROYING ∨
      allowedTransition WStatus.RUNNING WStatus.DESTROYING = true) ∧
    (runDestroySequence StepResult.failure StepResult.failure
        [newWorkspace 5 0] 5).1 =
      setStatus [newWorkspace 5 0] 5 WStatus.DESTROYED none := by
  constructor
  · exact (workspace_transition_discipline
        [{ id := 0, catalogId := 0, status := WStatus.RUNNING,
           accessUrl := none }]
        (setStatus
          [{ id := 0, catalogId := 0, status := WStatus.RUNNING,
             accessUrl := none }] 0 WStatus.DESTROYING none)
        0 WStatus.RUNNING WStatus.DESTROYING WStatus.RUNNING
        StepResult.success StepResult.success).1
      (Step.startDestroy _ 0 WStatus.RUNNING rfl (by decide) (by decide))
      rfl rfl
  · exact (workspace_transition_discipline [newWorkspace 5 0] [] 5
      WStatus.RUNNING WStatus.RUNNING WStatus.RUNNING
      StepResult.failure StepResult.failure).2.2.2.2

/-- C7: when resolve, build and deploy all succeeded but the exposure step
failed, the create sequence still marks the workspace `RUNNING`, leaves its
access URL null, and does not mark it `FAILED`. -/
theorem expose_failure_nonfatal (oc : CreateOutcome) (host : String)
    (reg : Registry) (wid : Nat) (w : Workspace)
    (hfound : oc.entryFound = true) (hbuilt : oc.imagesBuilt = true)
    (hdeploy : oc.deployApplied = true)
    (hexpose : oc.exposeResult = ExposeOutcome.exposeFailed)
    (hfind : findWorkspace reg wid = some w) :
    statusOf (runCreateSequence oc host reg wid) wid = some WStatus.RUNNING ∧
    urlOf (runCreateSequence oc host reg wid) wid = some none ∧
    statusOf (runCreateSequence oc host reg wid) wid ≠ some WStatus.FAILED := by
  have hrun : runCreateSequence oc host reg wid =
      setStatus reg wid WStatus.RUNNING none := by
    unfold runCreateSequence
    rw [hfound, hbuilt, hdeploy, hexpose]
    simp
  have hfind' : reg.find? (fun x => x.id == wid) = some w := hfind
  have hwid := List.find?_some hfind'
  have hstat : statusOf (runCreateSequence oc host reg wid) wid =
      some WStatus.RUNNING := by
    rw [hrun, statusOf_setStatus, hfind, Option.map_some', if_pos hwid]
  refine ⟨hstat, ?_, ?_⟩
  · rw [hrun]
    unfold urlOf
    rw [findWorkspace_setStatus, hfind, Option.map_some', Option.map_some',
      if_pos hwid]
  · rw [hstat]
    decide

theorem expose_failure_nonfatal_witness :
    statusOf (runCreateSequence
        { entryFound := true, imagesBuilt := true, deployApplied := true,
          exposeResult := ExposeOutcome.exposeFailed }
        ("localhost") [newWorkspace 5 0] 5) 5 = some WStatus.RUNNING ∧
    urlOf (runCreateSequence
        { entryFound := true, imagesBuilt := true, deployApplied := true,
          exposeResult := ExposeOutcome.exposeFailed }
        ("localhost") [newWorkspace 5 0] 5) 5 = some none := by
  have h := expose_failure_nonfatal
    { entryFound := true, imagesBuilt := true, deployApplied := true,
      exposeResult := ExposeOutcome.exposeFailed }
    ("localhost") [newWorkspace 5 0] 5 (newWorkspace 5 0)
    rfl rfl rfl rfl rfl
  exact ⟨h.1, h.2.1⟩

/-- C8: the destroy-all route returns 202 and begins destroy-all exactly on
`confirm=true`; any request without `confirm=true` is rejected with 400 and
initiates no destruction (the registry is returned unchanged). -/
theorem destroy_all_requires_confirm (confirm : Option String)
    (reg : Registry) :
    destroyAllRoute (some ("true")) reg = (202, startDestroyAll reg) ∧
    (∀ w ∈ startDestroyAll reg,
      w.status = WStatus.DESTROYING ∨ w.status = WStatus.DESTROYED) ∧
    (confirm ≠ some ("true") → destroyAllRoute confirm reg = (400, reg)) := by
  refine ⟨rfl, ?_, ?_⟩
  · intro w hw
    rcases List.mem_map.mp hw with ⟨v, hv, rfl⟩
    by_cases h : (v.status == WStatus.DESTROYED) = true
    · right
      rw [if_pos h]
      simpa using h
    · left
      rw [if_neg h]
  · intro h
    unfold destroyAllRoute
    rw [if_neg (by simpa using h)]

theorem destroy_all_requires_confirm_witness :
    destroyAllRoute (some ("true")) [newWorkspace 5 0] =
      (202, startDestroyAll [newWorkspace 5 0]) ∧
    destroyAllRoute none [newWorkspace 5 0] = (400, [newWorkspace 5 0]) :=
  ⟨(destroy_all_requires_confirm (some ("true")) [newWorkspace 5 0]).1,
   (destroy_all_requires_confirm none [newWorkspace 5 0]).2.2 (by simp)⟩

theorem mem_insertUnique {α : Type} [DecidableEq α] (x : α) (l : List α) :
    x ∈ insertUnique x l := by
  unfold insertUnique
  by_cases h : x ∈ l
  · rw [if_pos h]
    exact h
  · rw [if_neg h]
    exact List.mem_append_right l (List.mem_singleton_self x)

theorem insertUnique_idem {α : Type} [DecidableEq α] (x : α) (l : List α) :
    insertUnique x (insertUnique x l) = insertUnique x l := by
  by_cases h : x ∈ l
  · unfold insertUnique
    rw [if_pos h, if_pos h]
  · unfold insertUnique
    rw [if_neg h]
    rw [if_pos (List.mem_append_right l (List.mem_singleton_self x))]

theorem count_insertUnique {α : Type} [DecidableEq α] [BEq α] [LawfulBEq α]
    (x : α) (l : List α) :
    (insertUnique x l).count x = max 1 (l.count x) := by
  unfold insertUnique
  by_cases h : x ∈ l
  · rw [if_pos h]
    have hpos : 1 ≤ l.count x := List.count_pos_iff.mpr h
    rw [Nat.max_eq_right hpos]
  · rw [if_neg h]
    rw [List.count_append]
    have hz : l.count x = 0 := List.count_eq_zero.mpr h
    rw [hz]
    simp

/-- C5 counterexample: starting from an empty cluster, applying a valid
descriptor whose chart fails to become ready within the wait timeout (helm
atomic, the module default) returns the error with the freshly created
workspace namespace still present — the namespace is not rolled back, a
half-deployed (empty) namespace is left behind. -/
theorem apply_rollback_cex :
    (tfApply false true (codes ("ws1")) (codes ("Blog"))
        ⟨[], [], []⟩).1 = some TfError.HelmFailed ∧
    (tfApply false true (codes ("ws1")) (codes ("Blog"))
        ⟨[], [], []⟩).2.namespaces = [tfNamespace (codes ("ws1"))] ∧
    (tfApply false true (codes ("ws1")) (codes ("Blog"))
        ⟨[], [], []⟩).2.namespaces ≠ [] :=
  ⟨rfl, rfl, by decide⟩

/-- C5 (amended): with the default `helm_atomic = true`, when a chart
resource fails to become ready within the configured wait timeout the Helm
release is purged before the error is returned — no release and no partial
install is recorded — but the workspace namespace created in that attempt
is not rolled back: it remains in the cluster. -/
theorem apply_atomic_helm_level (st : ClusterState) (wsId appName : List Nat)
    (hvalid : validWorkspaceId wsId = true) :
    (tfApply false true wsId appName st).1 = some TfError.HelmFailed ∧
    (tfApply false true wsId appName st).2.releases = st.releases ∧
    (tfApply false true wsId appName st).2.partialReleases =
      st.partialReleases ∧
    tfNamespace wsId ∈ (tfApply false true wsId appName st).2.namespaces := by
  have hcond : ¬ (validWorkspaceId wsId = false) := by
    rw [hvalid]
    simp
  have happly : tfApply false true wsId appName st =
      (some TfError.HelmFailed,
        { st with
          namespaces := insertUnique (tfNamespace wsId) st.namespaces }) := by
    unfold tfApply
    rw [if_neg hcond]
    rfl
  rw [happly]
  exact ⟨rfl, rfl, rfl, mem_insertUnique _ _⟩

theorem apply_atomic_helm_level_witness :
    (tfApply false true (codes ("abc")) (codes ("Shop"))
        ⟨[], [], []⟩).1 = some TfError.HelmFailed ∧
    tfNamespace (codes ("abc")) ∈
      (tfApply false true (codes ("abc")) (codes ("Shop"))
        ⟨[], [], []⟩).2.namespaces := by
  have h := apply_atomic_helm_level ⟨[], [], []⟩ (codes ("abc"))
    (codes ("Shop")) (by decide)
  exact ⟨h.1, h.2.2.2⟩

/-- C6: the namespace name (`ws-{workspace_id}`) and Helm release name (the
app slug) are derived deterministically from the descriptor, and re-invoking
apply with the same descriptor after a failed atomic attempt converges to
the same end state as a single successful apply, with exactly one copy of
the namespace and of the release when the initial cluster had none. -/
theorem apply_retry_converges (st : ClusterState) (wsId appName : List Nat)
    (hvalid : validWorkspaceId wsId = true) :
    tfNamespace wsId = codes ("ws-") ++ wsId ∧
    tfReleaseName appName = tf_app_slug appName ∧
    (tfApply true true wsId appName
        ((tfApply false true wsId appName st).2)).2 =
      (tfApply true true wsId appName st).2 ∧
    ((tfApply true true wsId appName st).2.namespaces.count
        (tfNamespace wsId) =
      max 1 (st.namespaces.count (tfNamespace wsId))) ∧
    ((tfApply true true wsId appName st).2.releases.count
        (tfNamespace wsId, tfReleaseName appName) =
      max 1 (st.releases.count (tfNamespace wsId, tfReleaseName appName))) := by
  have hcond : ¬ (validWorkspaceId wsId = false) := by
    rw [hvalid]
    simp
  have happly1 : tfApply false true wsId appName st =
      (some TfError.HelmFailed,
        { st with
          namespaces := insertUnique (tfNamespace wsId) st.namespaces }) := by
    unfold tfApply
    rw [if_neg hcond]
    rfl
  have happly2 : ∀ st' : ClusterState, tfApply true true wsId appName st' =
      (none,
        { namespaces := insertUnique (tfNamespace wsId) st'.namespaces,
          releases := insertUnique (tfNamespace wsId, tfReleaseName appName)
            st'.releases,
          partialReleases := st'.partialReleases }) := by
    intro st'
    unfold tfApply
    rw [if_neg hcond]
    rfl
  refine ⟨rfl, rfl, ?_, ?_, ?_⟩
  · rw [happly1, happly2, happly2]
    simp [insertUnique_idem]
  · rw [happly2]
    exact count_insertUnique _ _
  · rw [happly2]
    exact count_insertUnique _ _

theorem apply_retry_converges_witness :
    (tfApply true true (codes ("web-1")) (codes ("Blog"))
        ((tfApply false true (codes ("web-1")) (codes ("Blog"))
          ⟨[], [], []⟩).2)).2 =
      (tfApply true true (codes ("web-1")) (codes ("Blog")) ⟨[], [], []⟩).2 :=
  (apply_retry_converges ⟨[], [], []⟩ (codes ("web-1")) (codes ("Blog"))
    (by decide)).2.2.1

theorem plain_char_slug (c : Nat)
    (h : (65 ≤ c ∧ c ≤ 90) ∨ (97 ≤ c ∧ c ≤ 122) ∨ (48 ≤ c ∧ c ≤ 57) ∨
      c = 32 ∨ c = 45) :
    isLowerAlnumHyphen (spaceToHyphen (asciiLower c)) = true ∧
    underscoreToHyphen (spaceToHyphen (asciiLower c)) =
      spaceToHyphen (asciiLower c) := by
  unfold asciiLower spaceToHyphen underscoreToHyphen isLowerAlnumHyphen
    isLowerAlnum
  constructor
  · split_ifs <;> simp <;> omega
  · split_ifs <;> omega

/-- C9 counterexample: for the display name My_App the Terraform module's
slug is myapp (the underscore is deleted by the `[^a-z0-9-]` regex) while
the DNS setup script's slug is my-app (the underscore is replaced by a
hyphen), so the two derivations disagree and derive different hostnames. -/
theorem slug_derivations_disagree_cex :
    tf_app_slug (codes ("My_App")) ≠ dnsSlug (codes ("My_App")) := by
  decide

/-- C9 (amended): the Terraform slug always consists of characters from
`[a-z0-9-]` (URL-safe, lowercase, hyphenated), and for every display name
made only of ASCII letters, digits, spaces and hyphens the two independent
slug derivations agree (hence both derive the same hostname); they can
differ only on a name containing an underscore or another special
character, which Terraform deletes but the DNS script hyphenates or
keeps. -/
theorem slug_derivations_agree_plain (name : List Nat) :
    (∀ c ∈ tf_app_slug name, isLowerAlnumHyphen c = true) ∧
    ((∀ c ∈ name, (65 ≤ c ∧ c ≤ 90) ∨ (97 ≤ c ∧ c ≤ 122) ∨
        (48 ≤ c ∧ c ≤ 57) ∨ c = 32 ∨ c = 45) →
      tf_app_slug name = dnsSlug name) := by
  constructor
  · intro c hc
    exact List.of_mem_filter hc
  · intro h
    induction name with
    | nil => rfl
    | cons c rest ih =>
      have hc := plain_char_slug c (h c (List.mem_cons_self c rest))
      have hrest := ih (fun x hx => h x (List.mem_cons_of_mem c hx))
      unfold tf_app_slug dnsSlug at hrest ⊢
      simp only [List.map_cons, List.filter_cons, hc.1, if_true, hc.2]
      exact congrArg (List.cons _) hrest

theorem slug_derivations_agree_plain_witness :
    isLowerAlnumHyphen 109 = true ∧
    tf_app_slug (codes ("E-Commerce Platform")) =
      dnsSlug (codes ("E-Commerce Platform")) :=
  ⟨(slug_derivations_agree_plain (codes ("My_App"))).1 109 (by decide),
   (slug_derivations_agree_plain (codes ("E-Commerce Platform"))).2
     (by decide)⟩

theorem matchesIdTail_iff (l : List Nat) :
    matchesIdTail l = true ↔
      (∀ c ∈ l, isLowerAlnumHyphen c = true) ∧
      (∃ lst, l.getLast? = some lst ∧ isLowerAlnum lst = true) := by
  induction l with
  | nil =>
    constructor
    · intro h
      exact absurd h (by decide)
    · rintro ⟨-, lst, hlast, -⟩
      exact absurd hlast (by simp)
  | cons c rest ih =>
    cases rest with
    | nil =>
      constructor
      · intro h
        have h' : isLowerAlnum c = true := h
        refine ⟨?_, c, rfl, h'⟩
        intro x hx
        rw [List.mem_singleton.mp hx]
        unfold isLowerAlnumHyphen
        rw [h']
        rfl
      · rintro ⟨-, lst, hlast, halnum⟩
        have hlc : lst = c := by
          have := hlast
          simp at this
          exact this.symm
        show isLowerAlnum c = true
        rw [← hlc]
        exact halnum
    | cons d rest2 =>
      constructor
      · intro h
        have h2 : (isLowerAlnumHyphen c && matchesIdTail (d :: rest2)) =
            true := h
        rw [Bool.and_eq_true] at h2
        obtain ⟨hall, lst, hlast, halnum⟩ := ih.mp h2.2
        refine ⟨?_, lst, ?_, halnum⟩
        · intro x hx
          rcases List.mem_cons.mp hx with hxc | hx'
          · rw [hxc]
            exact h2.1
          · exact hall x hx'
        · rw [List.getLast?_cons_cons]
          exact hlast
      · rintro ⟨hall, lst, hlast, halnum⟩
        show (isLowerAlnumHyphen c && matchesIdTail (d :: rest2)) = true
        rw [Bool.and_eq_true]
        refine ⟨hall c (List.mem_cons_self c (d :: rest2)), ih.mpr ⟨?_, lst, ?_, halnum⟩⟩
        · intro x hx
          exact hall x (List.mem_cons_of_mem c hx)
        · rw [List.getLast?_cons_cons] at hlast
          exact hlast

theorem validWorkspaceId_iff (s : List Nat) :
    validWorkspaceId s = true ↔ wsIdSpec s := by
  unfold validWorkspaceId wsIdSpec
  rw [Bool.and_eq_true, Bool.and_eq_true]
  simp only [decide_eq_true_eq]
  constructor
  · rintro ⟨⟨hpat, h3⟩, h63⟩
    cases s with
    | nil => exact absurd hpat (by decide)
    | cons c rest =>
      have hpat' : (isLowerAlnum c && matchesIdTail rest) = true := hpat
      rw [Bool.and_eq_true] at hpat'
      obtain ⟨hc, htail⟩ := hpat'
      obtain ⟨hall, lst, hlast, halnum⟩ := (matchesIdTail_iff rest).mp htail
      refine ⟨h3, h63, ?_, ⟨c, rfl, hc⟩, ⟨lst, ?_, halnum⟩⟩
      · intro x hx
        rcases List.mem_cons.mp hx with hxc | hx'
        · rw [hxc]
          unfold isLowerAlnumHyphen
          rw [hc]
          rfl
        · exact hall x hx'
      · cases rest with
        | nil => exact absurd htail (by decide)
        | cons d r2 =>
          rw [List.getLast?_cons_cons]
          exact hlast
  · rintro ⟨h3, h63, hall, ⟨hd, hhd, hhda⟩, ⟨lst, hlast, hlsta⟩⟩
    refine ⟨⟨?_, h3⟩, h63⟩
    cases s with
    | nil => simp at h3
    | cons c rest =>
      have hch : c = hd := by simpa using hhd
      show (isLowerAlnum c && matchesIdTail rest) = true
      rw [Bool.and_eq_true]
      refine ⟨by rw [hch]; exact hhda, ?_⟩
      rw [matchesIdTail_iff]
      cases rest with
      | nil => simp at h3
      | cons d r2 =>
        refine ⟨fun x hx => hall x (List.mem_cons_of_mem c hx), lst, ?_, hlsta⟩
        rw [List.getLast?_cons_cons] at hlast
        exact hlast

/-- C10: the Terraform input validation accepts a workspace id exactly when
it is a string of 3 to 63 lowercase alphanumeric or hyphen characters whose
first and last characters are alphanumeric; a rejected id fails at input
validation with the cluster untouched (no resource created), and for an
accepted id validation passes and the target namespace name is exactly
`ws-{workspace_id}`. -/
theorem workspace_id_validation (s appName : List Nat) (st : ClusterState)
    (helmReady helmAtomic : Bool) :
    (validWorkspaceId s = true ↔ wsIdSpec s) ∧
    (validWorkspaceId s = false →
      tfApply helmReady helmAtomic s appName st =
        (some TfError.InvalidWorkspaceId, st)) ∧
    (validWorkspaceId s = true →
      (tfApply helmReady helmAtomic s appName st).1 ≠
        some TfError.InvalidWorkspaceId ∧
      tfNamespace s = codes ("ws-") ++ s) := by
  refine ⟨validWorkspaceId_iff s, ?_, ?_⟩
  · intro h
    unfold tfApply
    rw [if_pos h]
  · intro h
    have hcond : ¬ (validWorkspaceId s = false) := by
      rw [h]
      simp
    refine ⟨?_, rfl⟩
    unfold tfApply
    rw [if_neg hcond]
    cases helmReady <;> cases helmAtomic <;> simp

theorem workspace_id_validation_witness :
    (tfApply true true (codes ("x")) (codes ("Blog")) ⟨[], [], []⟩ =
      (some TfError.InvalidWorkspaceId, ⟨[], [], []⟩)) ∧
    tfNamespace (codes ("abc")) = codes ("ws-") ++ codes ("abc") :=
  ⟨(workspace_id_validation (codes ("x")) (codes ("Blog")) ⟨[], [], []⟩
      true true).2.1 (by decide),
   ((workspace_id_validation (codes ("abc")) (codes ("Blog")) ⟨[], [], []⟩
      true true).2.2 (by decide)).2⟩
